import Mathlib

/-!
Verification development for the article-avaliator repository
(src/app.py, src/config.py): a Streamlit tool that assigns scientific
articles to reviewers, records Likert answers in a wide results sheet,
and supports skip / edit / filter flows.

The embedding below translates the pure data manipulation of the code:
pandas DataFrames become lists of rows; a row's cells are association
lists from column name to value, with `none` / a missing key standing
for NaN; the unseeded `random.choice` becomes indexing by an arbitrary
seed modulo the candidate count (CPython's `random.choice(seq)` is
`seq[randbelow(len(seq))]` with `randbelow` uniform); exceptions of the
Python code become `Except.error`.
-/

/-! ## Configuration (src/config.py) -/

/-- `AVALIADORES` from config.py: credential id (CPF) to display name. -/
def AVALIADORES : List (String × String) :=
  [("10809607670", "Pedro Henrique Marra Araújo"),
   ("78142440644", "Viviane Olímpia Marra")]

/-- One evaluation aspect: a question plus its Likert option list. -/
structure Aspect where
  pergunta : String
  opcoes : List String
deriving DecidableEq, Repr

/-- `ASPECTOS_AVALIACAO` from config.py. -/
def ASPECTOS_AVALIACAO : List Aspect :=
  [⟨"Qual a relevância do problema de pesquisa abordado?",
    ["1 - Muito Baixa", "2 - Baixa", "3 - Neutra", "4 - Alta", "5 - Muito Alta"]⟩,
   ⟨"Qual a clareza da metodologia apresentada?",
    ["1 - Muito Ruim", "2 - Ruim", "3 - Regular", "4 - Boa", "5 - Excelente"]⟩,
   ⟨"O quão inovadora é a contribuição do artigo?",
    ["1 - Nada Inovadora", "2 - Pouco Inovadora", "3 - Neutro", "4 - Inovadora",
     "5 - Muito Inovadora"]⟩]

/-- `COLUNAS_ORDENACAO_FALLBACK` from config.py. -/
def COLUNAS_ORDENACAO_FALLBACK : List String := ["Year", "Citations"]

/-- `ORDENS_ORDENACAO_FALLBACK` from config.py: `false` = descending,
`true` = ascending, matching pandas' `ascending=` argument. -/
def ORDENS_ORDENACAO_FALLBACK : List Bool := [false, true]

/-! ## Data model -/

/-- A catalog row of `df_articles` after `get_all_articles`: the code
guarantees the columns Title, Abstract, Year, Citations exist, with the
two numeric ones coerced to machine ints. -/
structure Article where
  title : String
  abstract : String
  year : Int
  citations : Int
deriving DecidableEq, Repr

/-- A row of the results DataFrame (`df_results`): Title and Abstract,
plus sparse per-reviewer cells keyed by column name; a key absent from
`cells` is a NaN cell. -/
structure LRow where
  title : String
  abstract : Option String
  cells : List (String × String)
deriving DecidableEq, Repr

/-- The results DataFrame: its dynamic column list (beyond Title and
Abstract) together with its rows. -/
structure Ledger where
  cols : List String
  rows : List LRow
deriving DecidableEq, Repr

/-- Reading one cell of a results row (`row[col]`); `none` is NaN. -/
def getCellR (row : LRow) (c : String) : Option String :=
  row.cells.lookup c

/-- `col.startswith(p)` on column names, by character lists. -/
def colStarts (p c : String) : Bool :=
  p.data.isPrefixOf c.data

/-! ## Selection engine (src/app.py, select_next_article) -/

/-- Columns of `df_results` belonging to a reviewer
(`[col for col in df_results.columns if col.startswith(f"{cpf}/")]`). -/
def reviewerCols (L : Ledger) (cpf : String) : List String :=
  L.cols.filter (fun c => colStarts (cpf ++ "/") c)

/-- `reviewed_by_user` of app.py lines 90-94: titles of ledger rows
where the reviewer has at least one non-NaN cell; the python `set` is a
duplicate-free list. -/
def reviewed_by_user (L : Ledger) (cpf : String) : List String :=
  let rcols := reviewerCols L cpf
  if rcols = [] then []
  else ((L.rows.filter (fun row => rcols.any (fun c => (getCellR row c).isSome))).map
          LRow.title).dedup

/-- `other_cols` of app.py lines 96-101: all ledger columns of the other
registered reviewers. -/
def otherCols (L : Ledger) (cpf : String) : List String :=
  ((AVALIADORES.map Prod.fst).erase cpf).flatMap
    (fun o => L.cols.filter (fun c => colStarts (o ++ "/") c))

/-- `reviewed_by_others` of app.py line 104. -/
def reviewed_by_others (L : Ledger) (cpf : String) : List String :=
  ((L.rows.filter (fun row => (otherCols L cpf).any (fun c => (getCellR row c).isSome))).map
     LRow.title).dedup

/-- `priority_to_review` of app.py lines 105-107: reviewed-by-others
minus reviewed-by-self, restricted to titles of the (filtered) catalog
argument. -/
def priorityList (cpf : String) (arts : List Article) (L : Ledger) : List String :=
  ((reviewed_by_others L cpf).filter (fun t => ¬ t ∈ reviewed_by_user L cpf)).filter
    (fun t => t ∈ arts.map Article.title)

/-- Column access `row[c]` for the two configured numeric sort columns
of a catalog row. -/
def attrOf (c : String) (a : Article) : Int :=
  if c = "Year" then a.year else if c = "Citations" then a.citations else 0

/-- The lexicographic "sorts no later than" preorder induced by a list
of (column, ascending?) sort keys, as `DataFrame.sort_values(by, ascending)`
orders rows (multi-key pandas sort is a stable lexicographic sort). -/
def leByCols : List (String × Bool) → Article → Article → Bool
  | [], _, _ => true
  | (c, asc) :: rest, a, b =>
    (if asc then decide (attrOf c a < attrOf c b) else decide (attrOf c b < attrOf c a)) ||
    (decide (attrOf c a = attrOf c b) && leByCols rest a b)

/-- The configured fallback ordering of app.py lines 120-123:
`sort_values(by=COLUNAS_ORDENACAO_FALLBACK, ascending=ORDENS_ORDENACAO_FALLBACK)`. -/
def fallbackRel (a b : Article) : Prop :=
  leByCols (COLUNAS_ORDENACAO_FALLBACK.zip ORDENS_ORDENACAO_FALLBACK) a b = true

instance : DecidableRel fallbackRel := fun a b =>
  inferInstanceAs (Decidable (_ = true))

/-- `df_new` of app.py lines 112-118: catalog rows whose title is in no
ledger row and not in `reviewed_by_user` (the membership in
`new_titles = set(df_articles['Title']) - titles_in_results - reviewed_by_user`
followed by `isin` keeps exactly these rows, in catalog order). -/
def fallback_candidates (cpf : String) (arts : List Article) (L : Ledger) : List Article :=
  arts.filter (fun a =>
    ¬ a.title ∈ L.rows.map LRow.title ∧ ¬ a.title ∈ reviewed_by_user L cpf)

/-- The title drawn by `random.choice(priority_to_review)` (app.py line
109) under seed `r`: CPython's `choice(seq)` is `seq[randbelow(len(seq))]`
with `randbelow` uniform on `[0, len)`. -/
def priorityChoice (cpf : String) (arts : List Article) (L : Ledger) (r : Nat) : String :=
  (priorityList cpf arts L).getD (r % (priorityList cpf arts L).length) ""

/-- The priority-tier return of app.py lines 109-110:
`df_articles[df_articles['Title'] == selected_title].iloc[0]`; `iloc[0]`
on an empty frame would be an IndexError. -/
def priorityPick (cpf : String) (arts : List Article) (L : Ledger) (r : Nat) :
    Except String (Option Article) :=
  match arts.find? (fun a => a.title == priorityChoice cpf arts L r) with
  | some a => Except.ok (some a)
  | none => Except.error "IndexError"

/-- The fallback tier of app.py lines 112-125: return `none` when no
new titles remain, else the first row of the sorted candidate frame. -/
def fallbackPick (cpf : String) (arts : List Article) (L : Ledger) :
    Except String (Option Article) :=
  if fallback_candidates cpf arts L = [] then Except.ok none
  else
    match (List.insertionSort fallbackRel (fallback_candidates cpf arts L)).head? with
    | some a => Except.ok (some a)
    | none => Except.error "IndexError"

/-- `select_next_article` of app.py lines 85-125.  `r` is the seed of
the unseeded `random.choice`; Python exceptions (the `ValueError` of
`list.remove` when the cpf is not registered, the `IndexError` of
`iloc[0]` on an empty frame) are `Except.error`.  The priority branch is
taken exactly under the code's `if other_cols: ... if priority_to_review:`
guards. -/
def select_next_article (cpf : String) (arts : List Article) (L : Ledger) (r : Nat) :
    Except String (Option Article) :=
  if arts = [] then Except.ok none
  else if cpf ∈ AVALIADORES.map Prod.fst then
    if otherCols L cpf ≠ [] ∧ priorityList cpf arts L ≠ [] then
      priorityPick cpf arts L r
    else fallbackPick cpf arts L
  else Except.error "ValueError: list.remove(x): x not in list"

/-! ## Filter layer (src/app.py, lines 187-192) -/

/-- The sidebar range filter over Year and Citations (inclusive bounds),
applied to the catalog only. -/
def filterArticles (arts : List Article) (y0 y1 c0 c1 : Int) : List Article :=
  arts.filter (fun a =>
    y0 ≤ a.year ∧ a.year ≤ y1 ∧ c0 ≤ a.citations ∧ a.citations ≤ c1)

/-- The selection step of `main` (app.py line 278): the catalog is
filtered, the ledger is passed unfiltered. -/
def main_select (cpf : String) (arts : List Article) (y0 y1 c0 c1 : Int) (L : Ledger)
    (r : Nat) : Except String (Option Article) :=
  select_next_article cpf (filterArticles arts y0 y1 c0 c1) L r

deriving instance DecidableEq for Except

/-! ## Sample data for witnesses -/

def artA : Article := ⟨"A", "absA", 2020, 5⟩
def artB : Article := ⟨"B", "absB", 2019, 10⟩
def artC : Article := ⟨"C", "absC", 2021, 1⟩

/-- An empty results table. -/
def L0 : Ledger := ⟨[], []⟩

/-- A ledger in which reviewer 78142440644 skipped article C. -/
def L1 : Ledger :=
  ⟨["78142440644/Aspect 1"], [⟨"C", some "absC", [("78142440644/Aspect 1", "SKIPPED")]⟩]⟩

/-! ## Properties of the fallback ordering -/

lemma fallbackRel_iff (a b : Article) :
    fallbackRel a b ↔
      b.year < a.year ∨ (a.year = b.year ∧ (a.citations < b.citations ∨ a.citations = b.citations)) := by
  simp [fallbackRel, leByCols, attrOf, COLUNAS_ORDENACAO_FALLBACK, ORDENS_ORDENACAO_FALLBACK,
    List.zip]

lemma fallbackRel_refl (a : Article) : fallbackRel a a := by
  rw [fallbackRel_iff]; omega

instance : IsTotal Article fallbackRel :=
  ⟨fun a b => by rw [fallbackRel_iff, fallbackRel_iff]; omega⟩

instance : IsTrans Article fallbackRel :=
  ⟨fun a b c hab hbc => by
    rw [fallbackRel_iff] at hab hbc ⊢; omega⟩

/-- The head of the sorted fallback frame is a candidate that sorts no
later than every candidate. -/
lemma head_insertionSort (l : List Article) (a : Article)
    (h : (List.insertionSort fallbackRel l).head? = some a) :
    a ∈ l ∧ ∀ b ∈ l, fallbackRel a b := by
  rcases hs : List.insertionSort fallbackRel l with _ | ⟨x, t⟩
  · rw [hs] at h; simp at h
  · rw [hs] at h
    simp only [List.head?_cons, Option.some.injEq] at h
    subst h
    have hsorted := List.sorted_insertionSort fallbackRel l
    rw [hs] at hsorted
    have hrest := (List.sorted_cons.mp hsorted).1
    constructor
    · have : x ∈ List.insertionSort fallbackRel l := by rw [hs]; exact List.mem_cons_self x t
      exact (List.mem_insertionSort fallbackRel).mp this
    · intro b hb
      have : b ∈ List.insertionSort fallbackRel l := (List.mem_insertionSort fallbackRel).mpr hb
      rw [hs] at this
      rcases List.mem_cons.mp this with hba | hbt
      · rw [hba]; exact fallbackRel_refl x
      · exact hrest b hbt

/-! ## Branch analysis of the selection engine -/

/-- With no priority candidates, there is nothing for `random.choice`
to draw from; app.py can only reach line 109 with a non-empty list. -/
lemma priorityChoice_mem (cpf : String) (arts : List Article) (L : Ledger) (r : Nat)
    (hP : priorityList cpf arts L ≠ []) :
    priorityChoice cpf arts L r ∈ priorityList cpf arts L := by
  have hlen : 0 < (priorityList cpf arts L).length := List.length_pos.mpr hP
  unfold priorityChoice
  rw [List.getD_eq_getElem _ _ (Nat.mod_lt _ hlen)]
  exact List.getElem_mem _

/-- Unpacking membership in `priority_to_review`. -/
lemma priorityList_spec (cpf : String) (arts : List Article) (L : Ledger) (t : String)
    (h : t ∈ priorityList cpf arts L) :
    t ∈ reviewed_by_others L cpf ∧ ¬ t ∈ reviewed_by_user L cpf ∧
      t ∈ arts.map Article.title := by
  have h1 := List.mem_filter.mp h
  have h2 := List.mem_filter.mp h1.1
  refine ⟨h2.1, ?_, ?_⟩
  · simpa using h2.2
  · simpa using h1.2

/-- Unpacking membership in `df_new`. -/
lemma fallback_candidates_spec (cpf : String) (arts : List Article) (L : Ledger) (a : Article)
    (h : a ∈ fallback_candidates cpf arts L) :
    a ∈ arts ∧ ¬ a.title ∈ L.rows.map LRow.title ∧ ¬ a.title ∈ reviewed_by_user L cpf := by
  have h1 := List.mem_filter.mp h
  have h2 := h1.2
  simp only [decide_eq_true_eq] at h2
  exact ⟨h1.1, h2.1, h2.2⟩

/-- If the priority tier returns an article, it is the catalog row whose
title is the drawn title. -/
lemma priorityPick_ok (cpf : String) (arts : List Article) (L : Ledger) (r : Nat)
    (a : Article) (h : priorityPick cpf arts L r = Except.ok (some a)) :
    a ∈ arts ∧ a.title = priorityChoice cpf arts L r := by
  unfold priorityPick at h
  rcases hf : arts.find? (fun a => a.title == priorityChoice cpf arts L r) with _ | a'
  · rw [hf] at h; simp at h
  · rw [hf] at h
    simp only [Except.ok.injEq, Option.some.injEq] at h
    subst h
    refine ⟨List.mem_of_find?_eq_some hf, ?_⟩
    have hpred := List.find?_some hf
    simpa using hpred

/-- When the drawn title is a catalog title, the priority tier succeeds. -/
lemma priorityPick_succeeds (cpf : String) (arts : List Article) (L : Ledger) (r : Nat)
    (hmem : priorityChoice cpf arts L r ∈ arts.map Article.title) :
    ∃ a, priorityPick cpf arts L r = Except.ok (some a) := by
  rcases List.mem_map.mp hmem with ⟨a, ha, hta⟩
  have hsome : (arts.find? (fun a => a.title == priorityChoice cpf arts L r)).isSome := by
    refine List.find?_isSome.mpr ⟨a, ha, ?_⟩
    simp [hta]
  rcases Option.isSome_iff_exists.mp hsome with ⟨a', hf⟩
  exact ⟨a', by unfold priorityPick; rw [hf]⟩

/-- If the fallback tier returns an article, it is a candidate that
sorts no later than every candidate. -/
lemma fallbackPick_ok (cpf : String) (arts : List Article) (L : Ledger) (a : Article)
    (h : fallbackPick cpf arts L = Except.ok (some a)) :
    a ∈ fallback_candidates cpf arts L ∧
      ∀ b ∈ fallback_candidates cpf arts L, fallbackRel a b := by
  unfold fallbackPick at h
  by_cases h4 : fallback_candidates cpf arts L = []
  · rw [if_pos h4] at h; simp at h
  · rw [if_neg h4] at h
    rcases hs : (List.insertionSort fallbackRel (fallback_candidates cpf arts L)).head? with
      _ | a'
    · rw [hs] at h; simp at h
    · rw [hs] at h
      simp only [Except.ok.injEq, Option.some.injEq] at h
      subst h
      exact head_insertionSort _ _ hs

/-- The fallback tier never raises: the sorted frame of a non-empty
candidate set is non-empty, so `iloc[0]` exists. -/
lemma fallbackPick_no_error (cpf : String) (arts : List Article) (L : Ledger) :
    ∃ o, fallbackPick cpf arts L = Except.ok o := by
  unfold fallbackPick
  by_cases h4 : fallback_candidates cpf arts L = []
  · exact ⟨none, by rw [if_pos h4]⟩
  · rw [if_neg h4]
    rcases hs : (List.insertionSort fallbackRel (fallback_candidates cpf arts L)).head? with
      _ | a'
    · exfalso
      have : List.insertionSort fallbackRel (fallback_candidates cpf arts L) = [] :=
        List.head?_eq_none_iff.mp hs
      have hlen := List.length_insertionSort fallbackRel (fallback_candidates cpf arts L)
      rw [this] at hlen
      exact h4 (List.length_eq_zero.mp hlen.symm)
    · exact ⟨some a', rfl⟩

/-- When the other reviewers have no columns, `reviewed_by_others` and
hence `priority_to_review` are empty (the code skips the tier). -/
lemma priorityList_of_otherCols_nil (cpf : String) (arts : List Article) (L : Ledger)
    (h : otherCols L cpf = []) : priorityList cpf arts L = [] := by
  unfold priorityList reviewed_by_others
  rw [h]
  simp

/-- The fallback tier returns an article whenever candidates remain. -/
lemma fallbackPick_some (cpf : String) (arts : List Article) (L : Ledger)
    (hF : fallback_candidates cpf arts L ≠ []) :
    ∃ a, fallbackPick cpf arts L = Except.ok (some a) := by
  unfold fallbackPick
  rw [if_neg hF]
  rcases hs : (List.insertionSort fallbackRel (fallback_candidates cpf arts L)).head? with
    _ | a'
  · exfalso
    have : List.insertionSort fallbackRel (fallback_candidates cpf arts L) = [] :=
      List.head?_eq_none_iff.mp hs
    have hlen := List.length_insertionSort fallbackRel (fallback_candidates cpf arts L)
    rw [this] at hlen
    exact hF (List.length_eq_zero.mp hlen.symm)
  · exact ⟨a', rfl⟩

/-- With priority candidates available, the engine takes the priority
branch. -/
lemma select_eq_priorityPick (cpf : String) (arts : List Article) (L : Ledger) (r : Nat)
    (hk : cpf ∈ AVALIADORES.map Prod.fst) (hP : priorityList cpf arts L ≠ []) :
    select_next_article cpf arts L r = priorityPick cpf arts L r := by
  have harts : arts ≠ [] := by
    rcases List.exists_mem_of_ne_nil _ hP with ⟨t, ht⟩
    have := (priorityList_spec cpf arts L t ht).2.2
    rcases List.mem_map.mp this with ⟨a, ha, _⟩
    exact List.ne_nil_of_mem ha
  have hoc : otherCols L cpf ≠ [] := by
    intro hnil; exact hP (priorityList_of_otherCols_nil cpf arts L hnil)
  unfold select_next_article
  rw [if_neg harts, if_pos hk, if_pos ⟨hoc, hP⟩]

/-- With priority candidates available, the engine returns the catalog
row of the seed-`r` draw. -/
lemma select_priority_core (cpf : String) (arts : List Article) (L : Ledger) (r : Nat)
    (hk : cpf ∈ AVALIADORES.map Prod.fst) (hP : priorityList cpf arts L ≠ []) :
    ∃ a, select_next_article cpf arts L r = Except.ok (some a) ∧
      a.title = priorityChoice cpf arts L r := by
  have hc := priorityChoice_mem cpf arts L r hP
  have hmem := (priorityList_spec cpf arts L _ hc).2.2
  rcases priorityPick_succeeds cpf arts L r hmem with ⟨a, hpp⟩
  have hspec := priorityPick_ok cpf arts L r a hpp
  exact ⟨a, by rw [select_eq_priorityPick cpf arts L r hk hP]; exact hpp, hspec.2⟩

/-- If the selection engine returns an article, that article is a row of
the catalog argument and its title is not in the reviewer's
reviewed-by-self set. -/
lemma select_ok_mem_not_self (cpf : String) (arts : List Article) (L : Ledger) (r : Nat)
    (a : Article) (h : select_next_article cpf arts L r = Except.ok (some a)) :
    a ∈ arts ∧ ¬ a.title ∈ reviewed_by_user L cpf := by
  unfold select_next_article at h
  by_cases h1 : arts = []
  · rw [if_pos h1] at h; simp at h
  rw [if_neg h1] at h
  by_cases h2 : cpf ∈ AVALIADORES.map Prod.fst
  · rw [if_pos h2] at h
    by_cases h3 : otherCols L cpf ≠ [] ∧ priorityList cpf arts L ≠ []
    · rw [if_pos h3] at h
      rcases priorityPick_ok cpf arts L r a h with ⟨hmem, htitle⟩
      refine ⟨hmem, ?_⟩
      have hc := priorityChoice_mem cpf arts L r h3.2
      rw [← htitle] at hc
      exact (priorityList_spec cpf arts L _ hc).2.1
    · rw [if_neg h3] at h
      rcases fallbackPick_ok cpf arts L a h with ⟨hmem, _⟩
      rcases fallback_candidates_spec cpf arts L a hmem with ⟨ha, _, hrbu⟩
      exact ⟨ha, hrbu⟩
  · rw [if_neg h2] at h; simp at h

/-! ## Claims about the selection engine -/

/-- C1: for every reviewer id, catalog and ledger (and random seed),
`select_next_article` never returns an article whose title is in the
reviewer's reviewed-by-self set (a title for which the reviewer already
has a non-empty answer or SKIPPED cell in the ledger). -/
theorem C1_never_reselect_self (cpf : String) (arts : List Article) (L : Ledger) (r : Nat)
    (a : Article) (h : select_next_article cpf arts L r = Except.ok (some a)) :
    ¬ a.title ∈ reviewed_by_user L cpf :=
  (select_ok_mem_not_self cpf arts L r a h).2

/-- Witness for C1 at a concrete input: reviewer 10809607670 is shown
article C (priority tier, skipped by the other reviewer), and C is not
in their reviewed-by-self set. -/
theorem C1_never_reselect_self_witness :
    select_next_article "10809607670" [artA, artB, artC] L1 0 = Except.ok (some artC) ∧
      ¬ artC.title ∈ reviewed_by_user L1 "10809607670" :=
  ⟨by decide, C1_never_reselect_self "10809607670" [artA, artB, artC] L1 0 artC (by decide)⟩

/-- C2: whenever the priority candidate set (titles reviewed by another
registered reviewer, minus titles reviewed by this reviewer, restricted
to the given catalog) is non-empty, the engine returns the catalog row
whose title is the seed-`r` draw `priorityList[r % len]` — the uniform
`random.choice` under a uniform seed — and every priority candidate is
the outcome for some seed. -/
theorem C2_priority_uniform_choice (cpf : String) (arts : List Article) (L : Ledger) (r : Nat)
    (hk : cpf ∈ AVALIADORES.map Prod.fst) (hP : priorityList cpf arts L ≠ []) :
    ∃ a, select_next_article cpf arts L r = Except.ok (some a) ∧
      a.title = priorityChoice cpf arts L r ∧
      a.title ∈ priorityList cpf arts L ∧
      ∀ i, i < (priorityList cpf arts L).length →
        ∃ a0, select_next_article cpf arts L i = Except.ok (some a0) ∧
          a0.title = (priorityList cpf arts L).getD i "" := by
  rcases select_priority_core cpf arts L r hk hP with ⟨a, hsel, htitle⟩
  refine ⟨a, hsel, htitle, ?_, ?_⟩
  · rw [htitle]; exact priorityChoice_mem cpf arts L r hP
  · intro i hi
    rcases select_priority_core cpf arts L i hk hP with ⟨a0, hsel0, htitle0⟩
    refine ⟨a0, hsel0, ?_⟩
    rw [htitle0]
    unfold priorityChoice
    rw [Nat.mod_eq_of_lt hi]

/-- Witness for C2 at a concrete input: with the other reviewer having
skipped C, reviewer 10809607670 gets C from the priority tier. -/
theorem C2_priority_uniform_choice_witness :
    "10809607670" ∈ AVALIADORES.map Prod.fst ∧
      priorityList "10809607670" [artA, artB, artC] L1 ≠ [] ∧
      (∃ a, select_next_article "10809607670" [artA, artB, artC] L1 0 = Except.ok (some a) ∧
        a.title = priorityChoice "10809607670" [artA, artB, artC] L1 0 ∧
        a.title ∈ priorityList "10809607670" [artA, artB, artC] L1 ∧
        ∀ i, i < (priorityList "10809607670" [artA, artB, artC] L1).length →
          ∃ a0, select_next_article "10809607670" [artA, artB, artC] L1 i =
              Except.ok (some a0) ∧
            a0.title = (priorityList "10809607670" [artA, artB, artC] L1).getD i "") :=
  ⟨by decide, by decide,
    C2_priority_uniform_choice "10809607670" [artA, artB, artC] L1 0 (by decide) (by decide)⟩

/-- C3: with an empty priority set and a non-empty fallback set, the
engine returns — independently of the random seed, so two runs on
identical inputs agree — a fallback candidate that sorts no later than
every fallback candidate under the configured ordering (Year descending,
then Citations ascending). -/
theorem C3_fallback_first_deterministic (cpf : String) (arts : List Article) (L : Ledger)
    (hk : cpf ∈ AVALIADORES.map Prod.fst) (hP : priorityList cpf arts L = [])
    (hF : fallback_candidates cpf arts L ≠ []) :
    ∃ a, (∀ r, select_next_article cpf arts L r = Except.ok (some a)) ∧
      a ∈ fallback_candidates cpf arts L ∧
      ∀ b ∈ fallback_candidates cpf arts L, fallbackRel a b := by
  have harts : arts ≠ [] := by
    rcases List.exists_mem_of_ne_nil _ hF with ⟨x, hx⟩
    exact List.ne_nil_of_mem (fallback_candidates_spec cpf arts L x hx).1
  have hsel : ∀ r, select_next_article cpf arts L r = fallbackPick cpf arts L := by
    intro r
    unfold select_next_article
    rw [if_neg harts, if_pos hk, if_neg (by simp [hP])]
  rcases fallbackPick_some cpf arts L hF with ⟨a, ha⟩
  rcases fallbackPick_ok cpf arts L a ha with ⟨hmem, hmin⟩
  exact ⟨a, fun r => by rw [hsel r]; exact ha, hmem, hmin⟩

/-- Witness for C3 at a concrete input: with an empty ledger the
fallback sort (Year desc, Citations asc) puts C (2021) first. -/
theorem C3_fallback_first_deterministic_witness :
    "10809607670" ∈ AVALIADORES.map Prod.fst ∧
      priorityList "10809607670" [artA, artB, artC] L0 = [] ∧
      fallback_candidates "10809607670" [artA, artB, artC] L0 ≠ [] ∧
      (∃ a, (∀ r, select_next_article "10809607670" [artA, artB, artC] L0 r =
          Except.ok (some a)) ∧
        a ∈ fallback_candidates "10809607670" [artA, artB, artC] L0 ∧
        ∀ b ∈ fallback_candidates "10809607670" [artA, artB, artC] L0, fallbackRel a b) :=
  ⟨by decide, by decide, by decide,
    C3_fallback_first_deterministic "10809607670" [artA, artB, artC] L0
      (by decide) (by decide) (by decide)⟩

/-- C5: the reviewed-by-self/others membership tests feed on the
unfiltered ledger — the priority candidate set of the filtered call is
exactly (reviewed-by-others, computed from the full ledger) minus
(reviewed-by-self, computed from the full ledger), restricted to the
filtered catalog's titles — while any returned article is a row of the
filtered catalog and is never a title the reviewer already reviewed in
the full ledger. -/
theorem C5_filter_only_restricts_catalog (cpf : String) (arts : List Article)
    (y0 y1 c0 c1 : Int) (L : Ledger) (r : Nat) (a : Article) :
    (priorityList cpf (filterArticles arts y0 y1 c0 c1) L =
      ((reviewed_by_others L cpf).filter (fun t => ¬ t ∈ reviewed_by_user L cpf)).filter
        (fun t => t ∈ (filterArticles arts y0 y1 c0 c1).map Article.title)) ∧
    (main_select cpf arts y0 y1 c0 c1 L r = Except.ok (some a) →
      a ∈ filterArticles arts y0 y1 c0 c1 ∧ ¬ a.title ∈ reviewed_by_user L cpf) := by
  refine ⟨rfl, fun h => ?_⟩
  have h' : select_next_article cpf (filterArticles arts y0 y1 c0 c1) L r =
      Except.ok (some a) := h
  exact select_ok_mem_not_self cpf (filterArticles arts y0 y1 c0 c1) L r a h'

/-- Witness for C5 at a concrete input: a year filter [2020, 2021] drops
B; the engine still sees (in the unfiltered ledger) that the other
reviewer skipped C and returns C, which lies within the filtered
catalog. -/
theorem C5_filter_only_restricts_catalog_witness :
    main_select "10809607670" [artA, artB, artC] 2020 2021 0 10 L1 0 =
        Except.ok (some artC) ∧
      (artC ∈ filterArticles [artA, artB, artC] 2020 2021 0 10 ∧
        ¬ artC.title ∈ reviewed_by_user L1 "10809607670") :=
  ⟨by decide,
    (C5_filter_only_restricts_catalog "10809607670" [artA, artB, artC]
        2020 2021 0 10 L1 0 artC).2 (by decide)⟩

/-- C8 counterexample: the claim quantifies over every reviewer id, but
for an unregistered id and a non-empty catalog the code raises: line 97
`other_reviewers_cpfs.remove(reviewer_cpf)` throws ValueError because
the id is not in the registry list. -/
theorem C8_counterexample :
    select_next_article "00000000000" [artA] L0 0 =
      Except.error "ValueError: list.remove(x): x not in list" ∧
      ¬ "00000000000" ∈ AVALIADORES.map Prod.fst := by decide

/-- C8 (amended): for a registered reviewer id the selection engine
never raises — it returns `Except.ok`; for every reviewer id an empty
catalog yields `none` immediately; and the filter layer maps an empty
catalog to an empty catalog. -/
theorem C8_no_raise_amended (cpf : String) (arts : List Article) (L : Ledger) (r : Nat)
    (y0 y1 c0 c1 : Int) :
    (arts = [] → select_next_article cpf arts L r = Except.ok none) ∧
    (cpf ∈ AVALIADORES.map Prod.fst → ∃ o, select_next_article cpf arts L r = Except.ok o) ∧
    filterArticles [] y0 y1 c0 c1 = [] := by
  refine ⟨?_, ?_, rfl⟩
  · intro h1; unfold select_next_article; rw [if_pos h1]
  · intro hk
    by_cases h1 : arts = []
    · exact ⟨none, by unfold select_next_article; rw [if_pos h1]⟩
    by_cases h3 : otherCols L cpf ≠ [] ∧ priorityList cpf arts L ≠ []
    · rcases select_priority_core cpf arts L r hk h3.2 with ⟨a, ha, _⟩
      exact ⟨some a, ha⟩
    · have hf : select_next_article cpf arts L r = fallbackPick cpf arts L := by
        unfold select_next_article; rw [if_neg h1, if_pos hk, if_neg h3]
      rcases fallbackPick_no_error cpf arts L with ⟨o, ho⟩
      exact ⟨o, by rw [hf]; exact ho⟩

/-- Witness for the amended C8 at concrete inputs: an empty catalog
yields `none`, and a registered reviewer on a non-empty catalog gets an
`Except.ok` result. -/
theorem C8_no_raise_amended_witness :
    (([] : List Article) = [] → select_next_article "10809607670" [] L0 0 = Except.ok none) ∧
      ("10809607670" ∈ AVALIADORES.map Prod.fst →
        ∃ o, select_next_article "10809607670" [artA] L0 0 = Except.ok o) :=
  ⟨fun h => (C8_no_raise_amended "10809607670" [] L0 0 0 0 0 0).1 h,
   fun hk => (C8_no_raise_amended "10809607670" [artA] L0 0 0 0 0 0).2.1 hk⟩

/-- C9: the engine either returns `none` (or an error) or an article
that is a row of the catalog argument it was given; it never fabricates
an article nor returns one present only in the ledger. -/
theorem C9_result_is_catalog_row (cpf : String) (arts : List Article) (L : Ledger) (r : Nat)
    (a : Article) (h : select_next_article cpf arts L r = Except.ok (some a)) :
    a ∈ arts :=
  (select_ok_mem_not_self cpf arts L r a h).1

/-- Witness for C9 at a concrete input. -/
theorem C9_result_is_catalog_row_witness :
    select_next_article "78142440644" [artA, artB] L0 3 = Except.ok (some artA) ∧
      artA ∈ [artA, artB] :=
  ⟨by decide, C9_result_is_catalog_row "78142440644" [artA, artB] L0 3 artA (by decide)⟩

/-! ## Submission handler (src/app.py, lines 327-344) -/

/-- Overwrite-or-append in a row's sparse cell list; `df.loc[idx, col] = v`
at the cell level. -/
def setA : List (String × String) → String → String → List (String × String)
  | [], c, v => [(c, v)]
  | p :: ps, c, v => if p.1 = c then (c, v) :: ps else p :: setA ps c v

/-- `df_results.loc[i, c] = v`: the column is appended to the frame's
columns when new, and row `i` (when it exists) gets the value. -/
def setCell (L : Ledger) (i : Nat) (c v : String) : Ledger :=
  { cols := if c ∈ L.cols then L.cols else L.cols ++ [c]
    rows := match L.rows[i]? with
      | some row => L.rows.set i { row with cells := setA row.cells c v }
      | none => L.rows }

/-- The reviewer's timestamp column `f"{cpf}/EvaluationDate"`. -/
def dateCol (cpf : String) : String := cpf ++ "/EvaluationDate"

/-- The reviewer's answer column `f"{cpf}/Aspect {i+1}"`. -/
def aspectCol (cpf : String) (i : Nat) : String :=
  cpf ++ ("/Aspect " ++ toString (i + 1))

/-- Observation of one reviewer cell of the first ledger row keyed by a
title (`df_results[df_results['Title'] == t].index[0]` then `.loc[_, c]`);
`none` when the column or the row is missing or the cell is NaN. -/
def getField (L : Ledger) (t c : String) : Option String :=
  if c ∈ L.cols then
    match L.rows.find? (fun row => row.title == t) with
    | some row => row.cells.lookup c
    | none => none
  else none

/-- The submission handler of app.py lines 327-344: ensure a row keyed
by the title exists (seeded with Title/Abstract), set the reviewer's
timestamp only when column-missing-or-NaN, then write one answer cell
per configured aspect — the chosen option on submit, `"SKIPPED"` on
skip. -/
def record (L : Ledger) (cpf : String) (t ab : String) (submitted : Bool)
    (resp : Nat → String) (now : String) : Ledger :=
  let L1 := if t ∈ L.rows.map LRow.title then L
            else { L with rows := L.rows ++ [⟨t, some ab, []⟩] }
  let idx := L1.rows.findIdx (fun row => row.title == t)
  let L2 := if ¬ dateCol cpf ∈ L1.cols ∨
        getCellR (L1.rows.getD idx ⟨"", none, []⟩) (dateCol cpf) = none
      then setCell L1 idx (dateCol cpf) now else L1
  (List.range ASPECTOS_AVALIACAO.length).foldl
    (fun acc i => setCell acc idx (aspectCol cpf i)
      (if submitted then resp i else "SKIPPED")) L2

/-! ## Cell-level lemmas -/

lemma lookup_setA_self (l : List (String × String)) (c v : String) :
    (setA l c v).lookup c = some v := by
  induction l with
  | nil => simp [setA, List.lookup]
  | cons p ps ih =>
    by_cases h : p.1 = c
    · simp [setA, h, List.lookup]
    · simp only [setA, if_neg h]
      rw [List.lookup_cons]
      have : (c == p.1) = false := by
        simp [beq_eq_false_iff_ne]
        exact fun he => h he.symm
      rw [this]
      exact ih

lemma lookup_setA_ne (l : List (String × String)) (c v c' : String) (h : c' ≠ c) :
    (setA l c v).lookup c' = l.lookup c' := by
  induction l with
  | nil =>
    have hb : (c' == c) = false := by simp [beq_eq_false_iff_ne, h]
    simp [setA, List.lookup, hb]
  | cons p ps ih =>
    by_cases hp : p.1 = c
    · simp only [setA, if_pos hp]
      rw [List.lookup_cons, List.lookup_cons]
      have h1 : (c' == c) = false := by simp [beq_eq_false_iff_ne, h]
      have h2 : (c' == p.1) = false := by simp [beq_eq_false_iff_ne, hp ▸ h]
      rw [h1, h2]
    · simp only [setA, if_neg hp]
      rw [List.lookup_cons, List.lookup_cons]
      cases hc : (c' == p.1) with
      | true => rfl
      | false => exact ih

/-! ## Frame-level lemmas about `setCell` -/

lemma setCell_cols_mem (L : Ledger) (i : Nat) (c v c' : String) :
    c' ∈ (setCell L i c v).cols ↔ c' ∈ L.cols ∨ c' = c := by
  unfold setCell
  by_cases h : c ∈ L.cols
  · rw [if_pos h]
    constructor
    · exact Or.inl
    · rintro (hc | rfl)
      · exact hc
      · exact h
  · rw [if_neg h]
    simp [List.mem_append]

lemma setCell_rows_length (L : Ledger) (i : Nat) (c v : String) :
    (setCell L i c v).rows.length = L.rows.length := by
  unfold setCell
  cases h : L.rows[i]? with
  | none => rfl
  | some row => simp

lemma setCell_rows_ne (L : Ledger) (i : Nat) (c v : String) (j : Nat) (h : j ≠ i) :
    (setCell L i c v).rows[j]? = L.rows[j]? := by
  unfold setCell
  cases hr : L.rows[i]? with
  | none => rfl
  | some row =>
    simp only []
    exact List.getElem?_set_ne (fun he => h he.symm)

lemma setCell_rows_self (L : Ledger) (i : Nat) (c v : String) (row : LRow)
    (h : L.rows[i]? = some row) :
    (setCell L i c v).rows[i]? = some { row with cells := setA row.cells c v } := by
  unfold setCell
  rw [h]
  simp only []
  have hlt : i < L.rows.length := by
    by_contra hge
    rw [List.getElem?_eq_none (Nat.le_of_not_lt hge)] at h
    exact Option.noConfusion h
  rw [List.getElem?_set_self]
  simp [hlt]

lemma set_of_getElem? {α : Type} (l : List α) (i : Nat) (a : α) (h : l[i]? = some a) :
    l.set i a = l := by
  induction l generalizing i with
  | nil => simp at h
  | cons x xs ih =>
    cases i with
    | zero =>
      simp only [List.getElem?_cons_zero, Option.some.injEq] at h
      simp [h]
    | succ n =>
      simp only [List.getElem?_cons_succ] at h
      simp [ih n h]

lemma setCell_titles (L : Ledger) (i : Nat) (c v : String) :
    (setCell L i c v).rows.map LRow.title = L.rows.map LRow.title := by
  unfold setCell
  cases hr : L.rows[i]? with
  | none => rfl
  | some row =>
    simp only []
    rw [List.map_set]
    apply set_of_getElem?
    rw [List.getElem?_map, hr]
    rfl

/-- `find?` returns the element at the first matching index. -/
lemma find?_eq_getElem?_findIdx {α : Type} (p : α → Bool) (l : List α) :
    l.find? p = l[l.findIdx p]? := by
  induction l with
  | nil => rfl
  | cons a t ih =>
    by_cases h : p a
    · simp [List.find?_cons, List.findIdx_cons, h]
    · simp [List.find?_cons, List.findIdx_cons, h, ih]

/-- The first index matching a title predicate depends only on the
title column. -/
lemma findIdx_eq_of_map_titles (l₁ l₂ : List LRow) (t : String)
    (h : l₁.map LRow.title = l₂.map LRow.title) :
    l₁.findIdx (fun row => row.title == t) = l₂.findIdx (fun row => row.title == t) := by
  induction l₁ generalizing l₂ with
  | nil =>
    cases l₂ with
    | nil => rfl
    | cons b bs => simp at h
  | cons a as ih =>
    cases l₂ with
    | nil => simp at h
    | cons b bs =>
      simp only [List.map_cons, List.cons.injEq] at h
      rw [List.findIdx_cons, List.findIdx_cons, h.1, ih bs h.2]

/-! ## Column-name facts -/

lemma strApp_left_cancel {p a b : String} (h : p ++ a = p ++ b) : a = b := by
  have hd : p.data ++ a.data = p.data ++ b.data := by
    have h1 := congrArg String.data h
    rw [String.data_append, String.data_append] at h1
    exact h1
  have h2 := List.append_cancel_left hd
  cases a
  cases b
  exact congrArg String.mk h2

lemma dateCol_ne_aspectCol (cpf : String) (i : Nat) (hi : i < 3) :
    dateCol cpf ≠ aspectCol cpf i := by
  unfold dateCol aspectCol
  intro h
  have := strApp_left_cancel h
  interval_cases i <;> exact absurd this (by decide)

lemma aspectCol_ne (cpf : String) (i j : Nat) (hi : i < 3) (hj : j < 3) (hij : i ≠ j) :
    aspectCol cpf i ≠ aspectCol cpf j := by
  unfold aspectCol
  intro h
  have := strApp_left_cancel h
  interval_cases i <;> interval_cases j <;> revert this <;> first | (exact absurd rfl hij) | decide

lemma colStarts_dateCol (cpf : String) : colStarts (cpf ++ "/") (dateCol cpf) = true := by
  unfold colStarts dateCol
  rw [List.isPrefixOf_iff_prefix, String.data_append, String.data_append]
  have : ("/".data : List Char) <+: "/EvaluationDate".data := ⟨"EvaluationDate".data, rfl⟩
  exact (List.prefix_append_right_inj cpf.data).mpr this

lemma colStarts_aspectCol (cpf : String) (i : Nat) :
    colStarts (cpf ++ "/") (aspectCol cpf i) = true := by
  unfold colStarts aspectCol
  rw [List.isPrefixOf_iff_prefix, String.data_append, String.data_append]
  refine (List.prefix_append_right_inj cpf.data).mpr ?_
  rw [String.data_append]
  exact ⟨"Aspect ".data ++ (toString (i + 1)).data, rfl⟩

/-! ## Reading fields through `setCell` -/

lemma getField_setCell_ne (L : Ledger) (i : Nat) (c v t c' : String) (h : c' ≠ c) :
    getField (setCell L i c v) t c' = getField L t c' := by
  unfold getField
  by_cases hc : c' ∈ L.cols
  · rw [if_pos ((setCell_cols_mem L i c v c').mpr (Or.inl hc)), if_pos hc]
    rw [find?_eq_getElem?_findIdx, find?_eq_getElem?_findIdx]
    rw [findIdx_eq_of_map_titles _ L.rows t (setCell_titles L i c v)]
    by_cases hki : L.rows.findIdx (fun row => row.title == t) = i
    · rw [hki]
      cases hr : L.rows[i]? with
      | none =>
        have hrows : (setCell L i c v).rows = L.rows := by
          unfold setCell
          rw [hr]
        rw [hrows, hr]
      | some row =>
        rw [setCell_rows_self L i c v row hr]
        exact lookup_setA_ne row.cells c v c' h
    · rw [setCell_rows_ne L i c v _ hki]
  · rw [if_neg hc,
      if_neg (fun hmem => ((setCell_cols_mem L i c v c').mp hmem).elim hc h)]

lemma getField_setCell_self (L : Ledger) (i : Nat) (c v t : String)
    (hidx : L.rows.findIdx (fun row => row.title == t) = i) (hlt : i < L.rows.length) :
    getField (setCell L i c v) t c = some v := by
  unfold getField
  rw [if_pos ((setCell_cols_mem L i c v c).mpr (Or.inr rfl))]
  rw [find?_eq_getElem?_findIdx]
  rw [findIdx_eq_of_map_titles _ L.rows t (setCell_titles L i c v), hidx]
  have hr : L.rows[i]? = some L.rows[i] := List.getElem?_eq_getElem hlt
  rw [setCell_rows_self L i c v _ hr]
  simp only []
  exact lookup_setA_self _ c v

/-! ## Staged view of `record` -/

/-- Stage 1 of the handler (app.py lines 331-333): ensure a row keyed by
the title exists. -/
def recordL1 (L : Ledger) (t ab : String) : Ledger :=
  if t ∈ L.rows.map LRow.title then L
  else { L with rows := L.rows ++ [⟨t, some ab, []⟩] }

/-- `row_idx` of app.py line 335: index of the first row keyed by the
title, after stage 1. -/
def recordIdx (L : Ledger) (t ab : String) : Nat :=
  (recordL1 L t ab).rows.findIdx (fun row => row.title == t)

/-- Stage 2 of the handler (app.py lines 337-339): stamp the reviewer's
evaluation date only when the column is missing or the cell is NaN. -/
def recordL2 (L : Ledger) (cpf t ab now : String) : Ledger :=
  if ¬ dateCol cpf ∈ (recordL1 L t ab).cols ∨
      getCellR ((recordL1 L t ab).rows.getD (recordIdx L t ab) ⟨"", none, []⟩)
          (dateCol cpf) = none
    then setCell (recordL1 L t ab) (recordIdx L t ab) (dateCol cpf) now
    else recordL1 L t ab

lemma record_eq_chain (L : Ledger) (cpf t ab : String) (sub : Bool) (resp : Nat → String)
    (now : String) :
    record L cpf t ab sub resp now =
      setCell (setCell (setCell (recordL2 L cpf t ab now) (recordIdx L t ab)
            (aspectCol cpf 0) (if sub then resp 0 else "SKIPPED"))
          (recordIdx L t ab) (aspectCol cpf 1) (if sub then resp 1 else "SKIPPED"))
        (recordIdx L t ab) (aspectCol cpf 2) (if sub then resp 2 else "SKIPPED") := rfl

lemma recordL1_cols (L : Ledger) (t ab : String) : (recordL1 L t ab).cols = L.cols := by
  unfold recordL1
  split <;> rfl

lemma recordL2_titles (L : Ledger) (cpf t ab now : String) :
    (recordL2 L cpf t ab now).rows.map LRow.title = (recordL1 L t ab).rows.map LRow.title := by
  unfold recordL2
  split
  · exact setCell_titles _ _ _ _
  · rfl

lemma recordL2_length (L : Ledger) (cpf t ab now : String) :
    (recordL2 L cpf t ab now).rows.length = (recordL1 L t ab).rows.length := by
  unfold recordL2
  split
  · exact setCell_rows_length _ _ _ _
  · rfl

lemma findIdx_append_singleton {α : Type} (l : List α) (p : α → Bool) (x : α)
    (h : ∀ y ∈ l, ¬ p y) (hx : p x) : (l ++ [x]).findIdx p = l.length := by
  induction l with
  | nil => simp [List.findIdx_cons, hx]
  | cons a as ih =>
    have ha : ¬ p a := h a (List.mem_cons_self a as)
    simp only [List.cons_append, List.findIdx_cons, Bool.cond_eq_if, if_neg ha,
      List.length_cons]
    rw [ih (fun y hy => h y (List.mem_cons_of_mem a hy))]

lemma recordIdx_lt (L : Ledger) (t ab : String) :
    recordIdx L t ab < (recordL1 L t ab).rows.length := by
  unfold recordIdx recordL1
  by_cases ht : t ∈ L.rows.map LRow.title
  · rw [if_pos ht]
    rcases List.mem_map.mp ht with ⟨row, hrow, hteq⟩
    exact List.findIdx_lt_length_of_exists ⟨row, hrow, by simp [hteq]⟩
  · rw [if_neg ht]
    have hall : ∀ y ∈ L.rows, ¬ (y.title == t) = true := by
      intro y hy hbeq
      exact ht (List.mem_map.mpr ⟨y, hy, by simpa using hbeq⟩)
    rw [findIdx_append_singleton L.rows _ _ hall (by simp)]
    simp

lemma recordIdx_of_mem (L : Ledger) (t ab : String) (ht : t ∈ L.rows.map LRow.title) :
    recordIdx L t ab = L.rows.findIdx (fun row => row.title == t) := by
  unfold recordIdx recordL1
  rw [if_pos ht]

lemma recordIdx_of_not_mem (L : Ledger) (t ab : String) (ht : ¬ t ∈ L.rows.map LRow.title) :
    recordIdx L t ab = L.rows.length := by
  unfold recordIdx recordL1
  rw [if_neg ht]
  have hall : ∀ y ∈ L.rows, ¬ (y.title == t) = true := by
    intro y hy hbeq
    exact ht (List.mem_map.mpr ⟨y, hy, by simpa using hbeq⟩)
  exact findIdx_append_singleton L.rows _ _ hall (by simp)

lemma getField_recordL1 (L : Ledger) (t ab c : String) :
    getField (recordL1 L t ab) t c = getField L t c := by
  unfold recordL1
  by_cases ht : t ∈ L.rows.map LRow.title
  · rw [if_pos ht]
  · rw [if_neg ht]
    unfold getField
    by_cases hc : c ∈ L.cols
    · rw [if_pos hc, if_pos hc]
      have hfind : L.rows.find? (fun row => row.title == t) = none :=
        List.find?_eq_none.mpr
          (fun y hy hbeq => ht (List.mem_map.mpr ⟨y, hy, by simpa using hbeq⟩))
      rw [List.find?_append, hfind]
      simp [List.find?_cons, List.lookup]
    · rw [if_neg hc, if_neg hc]

/-- The handler's "timestamp unset" guard (app.py line 338) holds
exactly when the observation `getField` of the timestamp is `none`. -/
lemma record_guard_iff (L : Ledger) (cpf t ab : String) :
    (¬ dateCol cpf ∈ (recordL1 L t ab).cols ∨
      getCellR ((recordL1 L t ab).rows.getD (recordIdx L t ab) ⟨"", none, []⟩)
          (dateCol cpf) = none) ↔ getField L t (dateCol cpf) = none := by
  have hlt := recordIdx_lt L t ab
  have hget : (recordL1 L t ab).rows[recordIdx L t ab]? =
      some ((recordL1 L t ab).rows.getD (recordIdx L t ab) ⟨"", none, []⟩) := by
    rw [List.getElem?_eq_getElem hlt]
    simp [List.getD, List.getElem?_eq_getElem hlt]
  have hfind1 : (recordL1 L t ab).rows.find? (fun row => row.title == t) =
      some ((recordL1 L t ab).rows.getD (recordIdx L t ab) ⟨"", none, []⟩) := by
    rw [find?_eq_getElem?_findIdx]
    exact hget
  have hcols := recordL1_cols L t ab
  rw [← getField_recordL1 L t ab (dateCol cpf)]
  unfold getField
  rw [hfind1, hcols]
  by_cases hc : dateCol cpf ∈ L.cols
  · rw [if_pos hc]
    simp [getCellR, hc]
  · rw [if_neg hc]
    simp [hc]

/-- After `record`, the reviewer's timestamp for the title equals the
prior value when one was set, else the new wall-clock string. -/
lemma record_getField_date (L : Ledger) (cpf t ab : String) (sub : Bool)
    (resp : Nat → String) (now : String) :
    getField (record L cpf t ab sub resp now) t (dateCol cpf) =
      some ((getField L t (dateCol cpf)).getD now) := by
  rw [record_eq_chain]
  rw [getField_setCell_ne _ _ _ _ _ _ (dateCol_ne_aspectCol cpf 2 (by omega)),
    getField_setCell_ne _ _ _ _ _ _ (dateCol_ne_aspectCol cpf 1 (by omega)),
    getField_setCell_ne _ _ _ _ _ _ (dateCol_ne_aspectCol cpf 0 (by omega))]
  unfold recordL2
  by_cases hg : ¬ dateCol cpf ∈ (recordL1 L t ab).cols ∨
      getCellR ((recordL1 L t ab).rows.getD (recordIdx L t ab) ⟨"", none, []⟩)
        (dateCol cpf) = none
  · rw [if_pos hg]
    rw [getField_setCell_self (recordL1 L t ab) (recordIdx L t ab) (dateCol cpf) now t rfl
      (recordIdx_lt L t ab)]
    rw [(record_guard_iff L cpf t ab).mp hg]
    rfl
  · rw [if_neg hg, getField_recordL1]
    have hne : ¬ getField L t (dateCol cpf) = none :=
      fun hnone => hg ((record_guard_iff L cpf t ab).mpr hnone)
    cases hv : getField L t (dateCol cpf) with
    | none => exact absurd hv hne
    | some v => rfl

/-- After `record`, every aspect cell of the reviewer for the title
holds the submitted option, or `"SKIPPED"` on skip. -/
lemma record_getField_aspect (L : Ledger) (cpf t ab : String) (sub : Bool)
    (resp : Nat → String) (now : String) (i : Nat) (hi : i < 3) :
    getField (record L cpf t ab sub resp now) t (aspectCol cpf i) =
      some (if sub then resp i else "SKIPPED") := by
  rw [record_eq_chain]
  have hT0 : (recordL2 L cpf t ab now).rows.map LRow.title =
      (recordL1 L t ab).rows.map LRow.title := recordL2_titles L cpf t ab now
  have hT1 : (setCell (recordL2 L cpf t ab now) (recordIdx L t ab) (aspectCol cpf 0)
        (if sub then resp 0 else "SKIPPED")).rows.map LRow.title =
      (recordL1 L t ab).rows.map LRow.title := by
    rw [setCell_titles, hT0]
  have hT2 : (setCell (setCell (recordL2 L cpf t ab now) (recordIdx L t ab) (aspectCol cpf 0)
          (if sub then resp 0 else "SKIPPED")) (recordIdx L t ab) (aspectCol cpf 1)
        (if sub then resp 1 else "SKIPPED")).rows.map LRow.title =
      (recordL1 L t ab).rows.map LRow.title := by
    rw [setCell_titles, hT1]
  have hlt := recordIdx_lt L t ab
  interval_cases i
  · rw [getField_setCell_ne _ _ _ _ _ _ (aspectCol_ne cpf 0 2 (by omega) (by omega) (by omega)),
      getField_setCell_ne _ _ _ _ _ _ (aspectCol_ne cpf 0 1 (by omega) (by omega) (by omega))]
    apply getField_setCell_self
    · exact findIdx_eq_of_map_titles _ _ t hT0
    · rw [recordL2_length]; exact hlt
  · rw [getField_setCell_ne _ _ _ _ _ _ (aspectCol_ne cpf 1 2 (by omega) (by omega) (by omega))]
    apply getField_setCell_self
    · exact findIdx_eq_of_map_titles _ _ t hT1
    · rw [setCell_rows_length, recordL2_length]; exact hlt
  · apply getField_setCell_self
    · exact findIdx_eq_of_map_titles _ _ t hT2
    · rw [setCell_rows_length, setCell_rows_length, recordL2_length]; exact hlt

/-! ## Claims about the submission handler -/

/-- C4: recording sets the reviewer's timestamp for the title only when
it is currently unset; a second `record` with the same arguments leaves
the timestamp at its value after the first call while the aspect cells
hold the second call's values. -/
theorem C4_timestamp_stable_answers_overwritten (L : Ledger) (cpf t ab : String)
    (sub : Bool) (resp : Nat → String) (now1 now2 : String) :
    (∀ v, getField L t (dateCol cpf) = some v →
      getField (record L cpf t ab sub resp now1) t (dateCol cpf) = some v) ∧
    (getField L t (dateCol cpf) = none →
      getField (record L cpf t ab sub resp now1) t (dateCol cpf) = some now1) ∧
    getField (record (record L cpf t ab sub resp now1) cpf t ab sub resp now2) t
        (dateCol cpf) =
      getField (record L cpf t ab sub resp now1) t (dateCol cpf) ∧
    (∀ i, i < ASPECTOS_AVALIACAO.length →
      getField (record (record L cpf t ab sub resp now1) cpf t ab sub resp now2) t
          (aspectCol cpf i) =
        some (if sub then resp i else "SKIPPED")) := by
  refine ⟨?_, ?_, ?_, ?_⟩
  · intro v hv
    rw [record_getField_date, hv]
    rfl
  · intro hv
    rw [record_getField_date, hv]
    rfl
  · rw [record_getField_date (record L cpf t ab sub resp now1) cpf t ab sub resp now2]
    rw [record_getField_date L cpf t ab sub resp now1]
    rfl
  · intro i hi
    exact record_getField_aspect _ cpf t ab sub resp now2 i hi

/-- Witness for C4 at a concrete input: a fresh ledger, timestamp set
on the first call with `"d1"`, preserved by a second call with `"d2"`,
answers equal to the (second) call's values. -/
theorem C4_timestamp_stable_answers_overwritten_witness :
    getField L0 "A" (dateCol "10809607670") = none ∧
      getField (record L0 "10809607670" "A" "absA" true (fun i => toString i) "d1") "A"
          (dateCol "10809607670") = some "d1" ∧
      getField (record (record L0 "10809607670" "A" "absA" true (fun i => toString i) "d1")
            "10809607670" "A" "absA" true (fun i => toString i) "d2") "A"
          (dateCol "10809607670") =
        getField (record L0 "10809607670" "A" "absA" true (fun i => toString i) "d1") "A"
          (dateCol "10809607670") ∧
      (0 : Nat) < ASPECTOS_AVALIACAO.length ∧
      getField (record (record L0 "10809607670" "A" "absA" true (fun i => toString i) "d1")
            "10809607670" "A" "absA" true (fun i => toString i) "d2") "A"
          (aspectCol "10809607670" 0) = some (if true then toString 0 else "SKIPPED") :=
  ⟨by decide,
   (C4_timestamp_stable_answers_overwritten L0 "10809607670" "A" "absA" true
       (fun i => toString i) "d1" "d2").2.1 (by decide),
   (C4_timestamp_stable_answers_overwritten L0 "10809607670" "A" "absA" true
       (fun i => toString i) "d1" "d2").2.2.1,
   by decide,
   (C4_timestamp_stable_answers_overwritten L0 "10809607670" "A" "absA" true
       (fun i => toString i) "d1" "d2").2.2.2 0 (by decide)⟩

lemma not_colStarts_ne_dateCol (cpf c : String)
    (hc : colStarts (cpf ++ "/") c = false) : c ≠ dateCol cpf := by
  intro he
  rw [he, colStarts_dateCol cpf] at hc
  exact Bool.noConfusion hc

lemma not_colStarts_ne_aspectCol (cpf c : String) (k : Nat)
    (hc : colStarts (cpf ++ "/") c = false) : c ≠ aspectCol cpf k := by
  intro he
  rw [he, colStarts_aspectCol cpf k] at hc
  exact Bool.noConfusion hc

lemma setCell_row_track (L : Ledger) (i : Nat) (c v : String) (row : LRow)
    (h : L.rows[i]? = some row) :
    ∃ row', (setCell L i c v).rows[i]? = some row' ∧ row'.title = row.title ∧
      row'.abstract = row.abstract ∧
      ∀ c', c' ≠ c → row'.cells.lookup c' = row.cells.lookup c' :=
  ⟨{ row with cells := setA row.cells c v }, setCell_rows_self L i c v row h, rfl, rfl,
    fun c' hc' => lookup_setA_ne row.cells c v c' hc'⟩

/-- Tracking the written row through the whole handler: its title and
abstract survive, and every cell outside the reviewer's own columns is
untouched. -/
lemma record_row_track (L : Ledger) (cpf t ab : String) (sub : Bool) (resp : Nat → String)
    (now : String) (row : LRow) (h : (recordL1 L t ab).rows[recordIdx L t ab]? = some row) :
    ∃ row', (record L cpf t ab sub resp now).rows[recordIdx L t ab]? = some row' ∧
      row'.title = row.title ∧ row'.abstract = row.abstract ∧
      ∀ c, colStarts (cpf ++ "/") c = false →
        row'.cells.lookup c = row.cells.lookup c := by
  have h2 : ∃ row2, (recordL2 L cpf t ab now).rows[recordIdx L t ab]? = some row2 ∧
      row2.title = row.title ∧ row2.abstract = row.abstract ∧
      ∀ c, colStarts (cpf ++ "/") c = false →
        row2.cells.lookup c = row.cells.lookup c := by
    unfold recordL2
    split
    · rcases setCell_row_track (recordL1 L t ab) (recordIdx L t ab) (dateCol cpf) now row h
        with ⟨row2, ha, hb, hcab, hd⟩
      exact ⟨row2, ha, hb, hcab, fun c hc => hd c (not_colStarts_ne_dateCol cpf c hc)⟩
    · exact ⟨row, h, rfl, rfl, fun c hc => rfl⟩
  rcases h2 with ⟨row2, hrow2, ht2, hab2, hlk2⟩
  rcases setCell_row_track (recordL2 L cpf t ab now) (recordIdx L t ab) (aspectCol cpf 0)
      (if sub then resp 0 else "SKIPPED") row2 hrow2 with ⟨row3, hrow3, ht3, hab3, hlk3⟩
  rcases setCell_row_track _ (recordIdx L t ab) (aspectCol cpf 1)
      (if sub then resp 1 else "SKIPPED") row3 hrow3 with ⟨row4, hrow4, ht4, hab4, hlk4⟩
  rcases setCell_row_track _ (recordIdx L t ab) (aspectCol cpf 2)
      (if sub then resp 2 else "SKIPPED") row4 hrow4 with ⟨row5, hrow5, ht5, hab5, hlk5⟩
  rw [record_eq_chain]
  refine ⟨row5, hrow5, by rw [ht5, ht4, ht3, ht2], by rw [hab5, hab4, hab3, hab2], ?_⟩
  intro c hc
  rw [hlk5 c (not_colStarts_ne_aspectCol cpf c 2 hc),
    hlk4 c (not_colStarts_ne_aspectCol cpf c 1 hc),
    hlk3 c (not_colStarts_ne_aspectCol cpf c 0 hc), hlk2 c hc]

/-- C10: `record` changes only the row keyed by the written title (and,
within it, only the reviewer's own `cpf/`-prefixed cells, plus the
Title/Abstract seed of a newly created row); every other row, every
non-`cpf/` column, and every other reviewer's cell is unchanged. -/
theorem C10_record_frame (L : Ledger) (cpf t ab : String) (sub : Bool)
    (resp : Nat → String) (now : String) :
    (∀ j, j < L.rows.length → j ≠ recordIdx L t ab →
      (record L cpf t ab sub resp now).rows[j]? = L.rows[j]?) ∧
    (∀ c, colStarts (cpf ++ "/") c = false →
      (c ∈ (record L cpf t ab sub resp now).cols ↔ c ∈ L.cols)) ∧
    (∀ row, L.rows[recordIdx L t ab]? = some row →
      ∃ row', (record L cpf t ab sub resp now).rows[recordIdx L t ab]? = some row' ∧
        row'.title = row.title ∧ row'.abstract = row.abstract ∧
        ∀ c, colStarts (cpf ++ "/") c = false →
          row'.cells.lookup c = row.cells.lookup c) ∧
    (¬ t ∈ L.rows.map LRow.title →
      (record L cpf t ab sub resp now).rows.length = L.rows.length + 1 ∧
      ∃ row', (record L cpf t ab sub resp now).rows[recordIdx L t ab]? = some row' ∧
        row'.title = t ∧ row'.abstract = some ab ∧
        ∀ c, colStarts (cpf ++ "/") c = false → row'.cells.lookup c = none) := by
  refine ⟨?_, ?_, ?_, ?_⟩
  · intro j hj hne
    rw [record_eq_chain]
    rw [setCell_rows_ne _ _ _ _ j hne, setCell_rows_ne _ _ _ _ j hne,
      setCell_rows_ne _ _ _ _ j hne]
    have h2 : (recordL2 L cpf t ab now).rows[j]? = (recordL1 L t ab).rows[j]? := by
      unfold recordL2
      split
      · exact setCell_rows_ne _ _ _ _ j hne
      · rfl
    rw [h2]
    unfold recordL1
    split
    · rfl
    · exact List.getElem?_append_left hj
  · intro c hc
    rw [record_eq_chain]
    rw [setCell_cols_mem, setCell_cols_mem, setCell_cols_mem]
    have h2 : c ∈ (recordL2 L cpf t ab now).cols ↔ c ∈ L.cols := by
      unfold recordL2
      split
      · rw [setCell_cols_mem, recordL1_cols]
        constructor
        · rintro (h | h)
          · exact h
          · exact absurd h (not_colStarts_ne_dateCol cpf c hc)
        · exact Or.inl
      · rw [recordL1_cols]
    rw [h2]
    constructor
    · rintro (((h | h) | h) | h)
      · exact h
      · exact absurd h (not_colStarts_ne_aspectCol cpf c 0 hc)
      · exact absurd h (not_colStarts_ne_aspectCol cpf c 1 hc)
      · exact absurd h (not_colStarts_ne_aspectCol cpf c 2 hc)
    · exact fun h => Or.inl (Or.inl (Or.inl h))
  · intro row hrow
    have hlt : recordIdx L t ab < L.rows.length := by
      by_contra hge
      rw [List.getElem?_eq_none (Nat.le_of_not_lt hge)] at hrow
      exact Option.noConfusion hrow
    have h1 : (recordL1 L t ab).rows[recordIdx L t ab]? = some row := by
      unfold recordL1
      split
      · exact hrow
      · rw [List.getElem?_append_left hlt]
        exact hrow
    exact record_row_track L cpf t ab sub resp now row h1
  · intro ht
    constructor
    · rw [record_eq_chain, setCell_rows_length, setCell_rows_length, setCell_rows_length,
        recordL2_length]
      unfold recordL1
      rw [if_neg ht]
      simp
    · have h1 : (recordL1 L t ab).rows[recordIdx L t ab]? = some ⟨t, some ab, []⟩ := by
        have hrows : (recordL1 L t ab).rows = L.rows ++ [⟨t, some ab, []⟩] := by
          unfold recordL1
          rw [if_neg ht]
        rw [hrows, recordIdx_of_not_mem L t ab ht]
        exact List.getElem?_concat_length L.rows _
      rcases record_row_track L cpf t ab sub resp now _ h1 with ⟨row', hr, htit, habs, hlk⟩
      exact ⟨row', hr, htit, habs, fun c hc => by rw [hlk c hc]; rfl⟩

/-- Witness for C10 at a concrete input: recording article A by
reviewer 10809607670 on a ledger holding only the other reviewer's row
for C leaves that row and the other reviewer's column untouched. -/
theorem C10_record_frame_witness :
    ((0 : Nat) < L1.rows.length ∧ (0 : Nat) ≠ recordIdx L1 "A" "absA" ∧
      (record L1 "10809607670" "A" "absA" false (fun i => toString i) "d1").rows[0]? =
        L1.rows[0]?) ∧
    (colStarts ("10809607670" ++ "/") "78142440644/Aspect 1" = false ∧
      ("78142440644/Aspect 1" ∈
          (record L1 "10809607670" "A" "absA" false (fun i => toString i) "d1").cols ↔
        "78142440644/Aspect 1" ∈ L1.cols)) :=
  ⟨⟨by decide, by decide,
    (C10_record_frame L1 "10809607670" "A" "absA" false (fun i => toString i) "d1").1 0
      (by decide) (by decide)⟩,
   ⟨by decide,
    (C10_record_frame L1 "10809607670" "A" "absA" false (fun i => toString i) "d1").2.1
      "78142440644/Aspect 1" (by decide)⟩⟩

/-! ## Catalog builder (src/app.py, get_all_articles) -/

/-- A raw worksheet cell as `get_all_records` delivers it: an integer, a
finite float (a sheet numeric cell is always finite; it is modelled as
the exact rational it denotes — binary float rounding below the integer
grid is outside the model's scope), a text, or an empty/NaN value. -/
inductive Cell where
  | num (n : Int)
  | flt (q : Rat)
  | strv (s : String)
  | empty
deriving DecidableEq, Repr

/-- One raw record (row) of a worksheet: column name to cell; a missing
key is an empty (NaN) cell. -/
abbrev RawRow := List (String × Cell)

/-- A worksheet's records. -/
abbrev RawTable := List RawRow

/-- Reading one cell of a raw row; a missing key is NaN. -/
def getC (row : RawRow) (c : String) : Cell :=
  (row.lookup c).getD Cell.empty

/-- Overwrite-or-append of one raw cell. -/
def setRC : RawRow → String → Cell → RawRow
  | [], c, v => [(c, v)]
  | p :: ps, c, v => if p.1 = c then (c, v) :: ps else p :: setRC ps c v

/-- Column list of a worksheet: first-appearance order of record keys,
as `pd.DataFrame(records).columns` builds them. -/
def tableCols (t : RawTable) : List String :=
  t.foldl (fun acc row => acc ++ ((row.map Prod.fst).filter (fun c => ¬ c ∈ acc))) []

/-- A concatenated frame: columns plus rows. -/
structure Frame where
  cols : List String
  rows : List RawRow
deriving DecidableEq, Repr

/-- Outcome of `get_all_articles` (app.py lines 51-83): the cleaned
catalog frame, the empty-source warning, the missing-columns error, or
a pandas exception caught by the function-level `except` of lines 81-83
(`loadError`); in all four cases the python function returns (an empty)
DataFrame rather than raising. -/
inductive BuildResult where
  | built (f : Frame)
  | noData
  | missing (cols : List String)
  | loadError (e : String)
deriving DecidableEq, Repr

/-- The value `pd.to_numeric` produces for one input: a finite number
(kept exact as a rational), a signed infinity, or NaN. -/
inductive NumVal where
  | fin (q : Rat)
  | inf (neg : Bool)
  | nan
deriving DecidableEq, Repr

def NumVal.negate : NumVal → NumVal
  | .fin q => .fin (-q)
  | .inf b => .inf (!b)
  | .nan => .nan

def isWS (c : Char) : Bool :=
  c = ' ' ∨ c = '\t' ∨ c = '\n' ∨ c = '\r'

def stripWS (l : List Char) : List Char :=
  ((l.dropWhile isWS).reverse.dropWhile isWS).reverse

/-- Longest digit run at the head of the list, and the rest. -/
def takeDigits : List Char → (List Char × List Char)
  | [] => ([], [])
  | c :: cs =>
    if c.isDigit then
      let p := takeDigits cs
      (c :: p.1, p.2)
    else ([], c :: cs)

def digitsVal (l : List Char) : Nat :=
  l.foldl (fun n c => 10 * n + (c.toNat - 48)) 0

/-- A non-empty all-digit list, or failure. -/
def parseDigits1 (l : List Char) : Option Nat :=
  let p := takeDigits l
  if p.1 = [] ∨ ¬ p.2 = [] then none else some (digitsVal p.1)

/-- The exponent part after the `e`: optional sign then digits. -/
def parseExpAfterE (l : List Char) : Option Int :=
  match l with
  | '+' :: rest => (parseDigits1 rest).map (fun n => (n : Int))
  | '-' :: rest => (parseDigits1 rest).map (fun n => -(n : Int))
  | _ => (parseDigits1 l).map (fun n => (n : Int))

/-- `digits [. digits]` with at least one digit: unsigned mantissa value,
number of fraction digits, and the unconsumed rest. -/
def parseMantissa (l : List Char) : Option (Int × Nat × List Char) :=
  let p := takeDigits l
  match p.2 with
  | '.' :: r2 =>
    let q := takeDigits r2
    if p.1 = [] ∧ q.1 = [] then none
    else some (((digitsVal p.1) * 10 ^ q.1.length + digitsVal q.1 : Nat), q.1.length, q.2)
  | _ => if p.1 = [] then none else some ((digitsVal p.1 : Nat), 0, p.2)

/-- The exact rational `mantissa / 10^fracDigits * 10^exp`. -/
def finOfParts (m : Int) (k : Nat) (e : Int) : NumVal :=
  NumVal.fin (if 0 ≤ e - (k : Int) then ((m * (10 : Int) ^ (e - (k : Int)).toNat : Int) : Rat)
    else mkRat m ((10 : Nat) ^ (-(e - (k : Int))).toNat))

/-- An unsigned numeric token (already lowercased): `inf`/`infinity`,
`nan`, or a decimal number with optional fraction and exponent. -/
def parseUnsigned (l : List Char) : Option NumVal :=
  if l = "inf".data ∨ l = "infinity".data then some (NumVal.inf false)
  else if l = "nan".data then some NumVal.nan
  else
    match parseMantissa l with
    | none => none
    | some (m, k, rest) =>
      match rest with
      | [] => some (finOfParts m k 0)
      | 'e' :: erest =>
        match parseExpAfterE erest with
        | none => none
        | some e => some (finOfParts m k e)
      | _ => none

/-- The numeric parse `pd.to_numeric(errors='coerce')` applies to one
text value: surrounding whitespace stripped, case-insensitive, optional
sign, decimal/scientific notation or `inf`/`nan`; `none` means the
value fails to parse (and coerces to NaN). -/
def parseNumeric? (s : String) : Option NumVal :=
  match (stripWS s.data).map Char.toLower with
  | '-' :: rest => (parseUnsigned rest).map NumVal.negate
  | '+' :: rest => parseUnsigned rest
  | l => parseUnsigned l

/-- Truncation toward zero, as `astype(int)` rounds a finite float. -/
def ratTrunc (q : Rat) : Int := Int.tdiv q.num (q.den : Int)

/-- `pd.to_numeric(x, errors='coerce')` on one cell. -/
def cellToNumVal (c : Cell) : NumVal :=
  match c with
  | .num n => NumVal.fin (n : Rat)
  | .flt q => NumVal.fin q
  | .strv s => (parseNumeric? s).getD NumVal.nan
  | .empty => NumVal.nan

/-- `.fillna(0).astype(int)` on the coerced value of one cell: NaN
becomes 0, a finite value truncates toward zero, and an infinity makes
`astype` raise (pandas refuses to cast non-finite values to int). -/
def coerceCell (c : Cell) : Except String Int :=
  match cellToNumVal c with
  | NumVal.fin q => Except.ok (ratTrunc q)
  | NumVal.inf _ =>
    Except.error "IntCastingNaNError: Cannot convert non-finite values (NA or inf) to integer"
  | NumVal.nan => Except.ok 0

/-- The column-wide cast of app.py line 71 on each row's cell of one
column; a raising cell aborts the whole cast. -/
def coerceRows (col : String) : List RawRow → Except String (List RawRow)
  | [] => Except.ok []
  | row :: rest =>
    match coerceCell (getC row col) with
    | Except.error e => Except.error e
    | Except.ok n =>
      match coerceRows col rest with
      | Except.error e => Except.error e
      | Except.ok rs => Except.ok (setRC row col (Cell.num n) :: rs)

/-- One iteration of the cleaning loop of app.py lines 69-71 for one
configured numeric column (skipped when the column is absent). -/
def coerceCol (f : Frame) (col : String) : Except String Frame :=
  if col ∈ f.cols then
    match coerceRows col f.rows with
    | Except.error e => Except.error e
    | Except.ok rs => Except.ok { f with rows := rs }
  else Except.ok f

/-- The cleaning loop of app.py lines 69-71 over the two configured
numeric columns; an exception from either column aborts the loop. -/
def coerceAll (f : Frame) : Except String Frame :=
  ["Year", "Citations"].foldl (fun acc col =>
    match acc with
    | Except.error e => Except.error e
    | Except.ok g => coerceCol g col) (Except.ok f)

/-- `pd.concat(all_dfs, ignore_index=True)` over the non-empty
worksheets (the `if data:` of app.py line 59 skips empty ones). -/
def concatTables (tables : List RawTable) : Frame :=
  { cols := (tables.filter (fun t => ¬ t = [])).foldl
      (fun acc t => acc ++ ((tableCols t).filter (fun c => ¬ c ∈ acc))) []
    rows := (tables.filter (fun t => ¬ t = [])).flatMap id }

/-- `drop_duplicates(subset=["Title"])`: keep the first row per Title
cell value. -/
def dropDupTitlesAux (seen : List Cell) : List RawRow → List RawRow
  | [] => []
  | row :: rest =>
    if getC row "Title" ∈ seen then dropDupTitlesAux seen rest
    else row :: dropDupTitlesAux (seen ++ [getC row "Title"]) rest

def dropDupTitles (rows : List RawRow) : List RawRow :=
  dropDupTitlesAux [] rows

/-- The `missing_cols` of app.py lines 73-74: required columns
(Title, Abstract, and the configured non-empty ordering columns) absent
from the concatenated frame. -/
def missingColsOf (full : Frame) : List String :=
  (["Title", "Abstract"] ++ COLUNAS_ORDENACAO_FALLBACK.filter (fun c => ¬ c = "")).filter
    (fun c => ¬ c ∈ full.cols)

/-- `get_all_articles` of app.py lines 51-83: concatenate the non-empty
worksheets, coerce the `Year` and `Citations` columns (a pandas
exception — a non-finite value hitting `astype(int)` — is caught by the
function-level `except` and reported, `loadError`), require
Title/Abstract plus the configured ordering columns, deduplicate by
Title keeping the first occurrence. -/
def get_all_articles (tables : List RawTable) : BuildResult :=
  if tables.filter (fun t => ¬ t = []) = [] then BuildResult.noData
  else
    match coerceAll (concatTables tables) with
    | Except.error e => BuildResult.loadError e
    | Except.ok full =>
      if ¬ missingColsOf full = [] then BuildResult.missing (missingColsOf full)
      else BuildResult.built { full with rows := dropDupTitles full.rows }

/-! ## Lemmas about the builder's coercion -/

lemma lookup_setRC_self (row : RawRow) (c : String) (v : Cell) :
    (setRC row c v).lookup c = some v := by
  induction row with
  | nil => simp [setRC, List.lookup]
  | cons p ps ih =>
    by_cases h : p.1 = c
    · simp [setRC, h, List.lookup]
    · simp only [setRC, if_neg h]
      rw [List.lookup_cons]
      have hb : (c == p.1) = false := by
        simp [beq_eq_false_iff_ne]
        exact fun he => h he.symm
      rw [hb]
      exact ih

lemma lookup_setRC_ne (row : RawRow) (c : String) (v : Cell) (c' : String) (h : c' ≠ c) :
    (setRC row c v).lookup c' = row.lookup c' := by
  induction row with
  | nil =>
    have hb : (c' == c) = false := by simp [beq_eq_false_iff_ne, h]
    simp [setRC, List.lookup, hb]
  | cons p ps ih =>
    by_cases hp : p.1 = c
    · simp only [setRC, if_pos hp]
      rw [List.lookup_cons, List.lookup_cons]
      have h1 : (c' == c) = false := by simp [beq_eq_false_iff_ne, h]
      have h2 : (c' == p.1) = false := by simp [beq_eq_false_iff_ne, hp ▸ h]
      rw [h1, h2]
    · simp only [setRC, if_neg hp]
      rw [List.lookup_cons, List.lookup_cons]
      cases hc : (c' == p.1) with
      | true => rfl
      | false => exact ih

lemma getC_setRC_self (row : RawRow) (c : String) (v : Cell) : getC (setRC row c v) c = v := by
  unfold getC
  rw [lookup_setRC_self]
  rfl

lemma getC_setRC_ne (row : RawRow) (c : String) (v : Cell) (c' : String) (h : c' ≠ c) :
    getC (setRC row c v) c' = getC row c' := by
  unfold getC
  rw [lookup_setRC_ne row c v c' h]

/-- A successful column cast makes every cell of that column an integer
and leaves every other column of each row untouched. -/
lemma coerceRows_ok_shape (col : String) (rows rs : List RawRow)
    (h : coerceRows col rows = Except.ok rs) :
    ∀ r ∈ rs, (∃ n, getC r col = Cell.num n) ∧
      ∃ row0, row0 ∈ rows ∧ ∀ c', c' ≠ col → getC r c' = getC row0 c' := by
  induction rows generalizing rs with
  | nil =>
    unfold coerceRows at h
    simp only [Except.ok.injEq] at h
    subst h
    intro r hr
    simp at hr
  | cons row rest ih =>
    unfold coerceRows at h
    cases hc : coerceCell (getC row col) with
    | error e => rw [hc] at h; exact absurd h (by simp)
    | ok n =>
      rw [hc] at h
      cases hr : coerceRows col rest with
      | error e => rw [hr] at h; exact absurd h (by simp)
      | ok rs' =>
        rw [hr] at h
        simp only [Except.ok.injEq] at h
        subst h
        intro r hmem
        rcases List.mem_cons.mp hmem with h1 | h1
        · subst h1
          refine ⟨⟨n, getC_setRC_self row col (Cell.num n)⟩,
            row, List.mem_cons_self row rest, ?_⟩
          intro c' hc'
          exact getC_setRC_ne row col (Cell.num n) c' hc'
        · rcases ih rs' hr r h1 with ⟨hnum, row0, hrow0, hpres⟩
          exact ⟨hnum, row0, List.mem_cons_of_mem row hrow0, hpres⟩

lemma coerceCol_ok_cols (f : Frame) (col : String) (f' : Frame)
    (h : coerceCol f col = Except.ok f') : f'.cols = f.cols := by
  unfold coerceCol at h
  by_cases hc : col ∈ f.cols
  · rw [if_pos hc] at h
    cases hr : coerceRows col f.rows with
    | error e => rw [hr] at h; exact absurd h (by simp)
    | ok rs =>
      rw [hr] at h
      simp only [Except.ok.injEq] at h
      rw [← h]
  · rw [if_neg hc] at h
    simp only [Except.ok.injEq] at h
    rw [← h]

lemma coerceCol_ok_rows (f : Frame) (col : String) (f' : Frame) (hc : col ∈ f.cols)
    (h : coerceCol f col = Except.ok f') : coerceRows col f.rows = Except.ok f'.rows := by
  unfold coerceCol at h
  rw [if_pos hc] at h
  cases hr : coerceRows col f.rows with
  | error e => rw [hr] at h; exact absurd h (by simp)
  | ok rs =>
    rw [hr] at h
    simp only [Except.ok.injEq] at h
    rw [← h]

lemma coerceCol_ok_num (f : Frame) (col : String) (f' : Frame) (hc : col ∈ f.cols)
    (h : coerceCol f col = Except.ok f') :
    ∀ r ∈ f'.rows, ∃ n, getC r col = Cell.num n := by
  intro r hr
  exact (coerceRows_ok_shape col f.rows f'.rows (coerceCol_ok_rows f col f' hc h) r hr).1

lemma coerceCol_ok_preserve (f : Frame) (col : String) (f' : Frame)
    (h : coerceCol f col = Except.ok f') :
    ∀ r ∈ f'.rows, ∃ row0, row0 ∈ f.rows ∧
      ∀ c', c' ≠ col → getC r c' = getC row0 c' := by
  by_cases hc : col ∈ f.cols
  · intro r hr
    exact (coerceRows_ok_shape col f.rows f'.rows (coerceCol_ok_rows f col f' hc h) r hr).2
  · unfold coerceCol at h
    rw [if_neg hc] at h
    simp only [Except.ok.injEq] at h
    subst h
    intro r hr
    exact ⟨r, hr, fun c' _ => rfl⟩

lemma coerceAll_eq (f : Frame) :
    coerceAll f = match coerceCol f "Year" with
      | Except.error e => Except.error e
      | Except.ok f1 => coerceCol f1 "Citations" := rfl

lemma coerceAll_ok_cols (f full : Frame) (h : coerceAll f = Except.ok full) :
    full.cols = f.cols := by
  rw [coerceAll_eq] at h
  cases h1 : coerceCol f "Year" with
  | error e => rw [h1] at h; exact absurd h (by simp)
  | ok f1 =>
    rw [h1] at h
    rw [coerceCol_ok_cols f1 "Citations" full h, coerceCol_ok_cols f "Year" f1 h1]

/-- After a successful cleaning loop, every cell of a configured numeric
column that exists in the source frame holds an integer. -/
lemma coerceAll_ok_num (f full : Frame) (h : coerceAll f = Except.ok full)
    (c : String) (hcol : c = "Year" ∨ c = "Citations") (hc : c ∈ f.cols) :
    ∀ r ∈ full.rows, ∃ n, getC r c = Cell.num n := by
  rw [coerceAll_eq] at h
  cases h1 : coerceCol f "Year" with
  | error e => rw [h1] at h; exact absurd h (by simp)
  | ok f1 =>
    rw [h1] at h
    rcases hcol with rfl | rfl
    · intro r hr
      rcases coerceCol_ok_preserve f1 "Citations" full h r hr with ⟨row1, hrow1, hpres⟩
      rcases coerceCol_ok_num f "Year" f1 hc h1 row1 hrow1 with ⟨n, hn⟩
      exact ⟨n, by rw [hpres "Year" (by decide), hn]⟩
    · have hc1 : "Citations" ∈ f1.cols := by
        rw [coerceCol_ok_cols f "Year" f1 h1]
        exact hc
      exact coerceCol_ok_num f1 "Citations" full hc1 h

/-- The per-cell cast can only raise on a non-finite coerced value. -/
lemma coerceCell_error_inf (c : Cell) (e : String) (h : coerceCell c = Except.error e) :
    ∃ b, cellToNumVal c = NumVal.inf b := by
  unfold coerceCell at h
  cases hv : cellToNumVal c with
  | fin q => rw [hv] at h; exact absurd h (by simp)
  | inf b => exact ⟨b, rfl⟩
  | nan => rw [hv] at h; exact absurd h (by simp)

/-- Branch equations for `get_all_articles`. -/
lemma get_all_articles_noData (tables : List RawTable)
    (h1 : tables.filter (fun t => ¬ t = []) = []) :
    get_all_articles tables = BuildResult.noData := by
  unfold get_all_articles
  rw [if_pos h1]

lemma get_all_articles_error (tables : List RawTable) (e : String)
    (h1 : ¬ tables.filter (fun t => ¬ t = []) = [])
    (hca : coerceAll (concatTables tables) = Except.error e) :
    get_all_articles tables = BuildResult.loadError e := by
  unfold get_all_articles
  rw [if_neg h1, hca]

lemma get_all_articles_ok (tables : List RawTable) (full : Frame)
    (h1 : ¬ tables.filter (fun t => ¬ t = []) = [])
    (hca : coerceAll (concatTables tables) = Except.ok full) :
    get_all_articles tables =
      if ¬ missingColsOf full = [] then BuildResult.missing (missingColsOf full)
      else BuildResult.built { full with rows := dropDupTitles full.rows } := by
  unfold get_all_articles
  rw [if_neg h1, hca]

/-- Integer cells pass through the cast unchanged (sign included). -/
lemma coerceCell_int (n : Int) : coerceCell (Cell.num n) = Except.ok n := by
  simp [coerceCell, cellToNumVal, ratTrunc, Rat.num_intCast, Rat.den_intCast]

lemma mem_dropDupTitlesAux (seen : List Cell) (rows : List RawRow) (row : RawRow)
    (h : row ∈ dropDupTitlesAux seen rows) : row ∈ rows := by
  induction rows generalizing seen with
  | nil => simp [dropDupTitlesAux] at h
  | cons x xs ih =>
    unfold dropDupTitlesAux at h
    by_cases hx : getC x "Title" ∈ seen
    · rw [if_pos hx] at h
      exact List.mem_cons_of_mem x (ih seen h)
    · rw [if_neg hx] at h
      rcases List.mem_cons.mp h with h1 | hmem
      · rw [h1]
        exact List.mem_cons_self x xs
      · exact List.mem_cons_of_mem x (ih _ hmem)

/-- The concrete catalog source exhibiting the sign counterexample: one
worksheet, one row, `Year` holding `-3`. -/
def tNeg : RawTable :=
  [[("Title", Cell.strv "A"), ("Abstract", Cell.strv "x"),
    ("Year", Cell.num (-3)), ("Citations", Cell.num 1)]]

/-- The frame that `get_all_articles` builds from `tNeg`. -/
def fNeg : Frame :=
  ⟨["Title", "Abstract", "Year", "Citations"],
   [[("Title", Cell.strv "A"), ("Abstract", Cell.strv "x"),
     ("Year", Cell.num (-3)), ("Citations", Cell.num 1)]]⟩

/-- The concrete catalog source exhibiting the load-failure
counterexample: a `Year` text cell reading `inf`. -/
def tInf : RawTable :=
  [[("Title", Cell.strv "A"), ("Abstract", Cell.strv "x"),
    ("Year", Cell.strv "inf"), ("Citations", Cell.num 1)]]

/-- C6 counterexample, refuting two parts of the claim at concrete
inputs.  First, the coercion of app.py line 71
(`pd.to_numeric(...).fillna(0).astype(int)`) preserves the sign, so a
negative `Year` survives the load intact — not a non-negative integer.
Second, a `Year` cell reading `"inf"` coerces to a float infinity that
`fillna(0)` does not touch, `astype(int)` raises on it, and the
function-level `except` turns the whole load into an empty-catalog
error — so the coercion can fail the whole load. -/
theorem C6_counterexample :
    (get_all_articles [tNeg] = BuildResult.built fNeg ∧
      getC (fNeg.rows.getD 0 []) "Year" = Cell.num (-3) ∧ (-3 : Int) < 0) ∧
    get_all_articles [tInf] = BuildResult.loadError
      "IntCastingNaNError: Cannot convert non-finite values (NA or inf) to integer" := by
  refine ⟨⟨by decide, by decide, by decide⟩, by decide⟩

/-- C6 (amended): the builder coerces each configured numeric ordering
column (when present) to an integer — numeric text parses sign,
decimals and exponent and truncates toward zero; an integer passes
through with its sign — with any value that fails to parse as a number
(or is missing) treated as 0.  The cast raises only on a non-finite
coerced value; the builder never propagates an exception: every input
yields a built frame, the no-data warning, the missing-columns report,
or the caught-exception outcome. -/
theorem C6_coercion_amended :
    (∀ tables f c, get_all_articles tables = BuildResult.built f →
      (c = "Year" ∨ c = "Citations") → c ∈ f.cols →
      ∀ row ∈ f.rows, ∃ n : Int, getC row c = Cell.num n) ∧
    (∀ s, parseNumeric? s = none → coerceCell (Cell.strv s) = Except.ok 0) ∧
    coerceCell Cell.empty = Except.ok 0 ∧
    (∀ n : Int, coerceCell (Cell.num n) = Except.ok n) ∧
    (∀ c e, coerceCell c = Except.error e → ∃ b, cellToNumVal c = NumVal.inf b) ∧
    (∀ tables, (∃ f, get_all_articles tables = BuildResult.built f) ∨
      get_all_articles tables = BuildResult.noData ∨
      (∃ cs, get_all_articles tables = BuildResult.missing cs) ∨
      (∃ e, get_all_articles tables = BuildResult.loadError e)) := by
  refine ⟨?_, ?_, rfl, coerceCell_int, coerceCell_error_inf, ?_⟩
  · intro tables f c hbuilt hcol hc row hrow
    by_cases h1 : tables.filter (fun t => ¬ t = []) = []
    · rw [get_all_articles_noData tables h1] at hbuilt
      exact absurd hbuilt (by simp)
    cases hca : coerceAll (concatTables tables) with
    | error e =>
      rw [get_all_articles_error tables e h1 hca] at hbuilt
      exact absurd hbuilt (by simp)
    | ok full =>
      rw [get_all_articles_ok tables full h1 hca] at hbuilt
      by_cases h2 : ¬ missingColsOf full = []
      · rw [if_pos h2] at hbuilt
        exact absurd hbuilt (by simp)
      · rw [if_neg h2] at hbuilt
        simp only [BuildResult.built.injEq] at hbuilt
        subst hbuilt
        have hc' : c ∈ full.cols := hc
        have hrow' : row ∈ dropDupTitles full.rows := hrow
        have hc0 : c ∈ (concatTables tables).cols := by
          rw [← coerceAll_ok_cols _ _ hca]
          exact hc'
        exact coerceAll_ok_num _ _ hca c hcol hc0 row
          (mem_dropDupTitlesAux [] full.rows row hrow')
  · intro s hs
    simp [coerceCell, cellToNumVal, hs]
  · intro tables
    by_cases h1 : tables.filter (fun t => ¬ t = []) = []
    · rw [get_all_articles_noData tables h1]
      exact Or.inr (Or.inl rfl)
    cases hca : coerceAll (concatTables tables) with
    | error e =>
      rw [get_all_articles_error tables e h1 hca]
      exact Or.inr (Or.inr (Or.inr ⟨e, rfl⟩))
    | ok full =>
      rw [get_all_articles_ok tables full h1 hca]
      by_cases h2 : ¬ missingColsOf full = []
      · rw [if_pos h2]
        exact Or.inr (Or.inr (Or.inl ⟨_, rfl⟩))
      · rw [if_neg h2]
        exact Or.inl ⟨_, rfl⟩

/-- Witness for the amended C6 at concrete inputs: the built frame from
`tNeg` has an integer in every `Year` cell; `"abc"` fails to parse and
coerces to 0; `"3.5"` and `"-2.7"` truncate toward zero as the program
does. -/
theorem C6_coercion_amended_witness :
    get_all_articles [tNeg] = BuildResult.built fNeg ∧
      ("Year" = "Year" ∨ "Year" = "Citations") ∧ "Year" ∈ fNeg.cols ∧
      fNeg.rows.getD 0 [] ∈ fNeg.rows ∧
      (∃ n : Int, getC (fNeg.rows.getD 0 []) "Year" = Cell.num n) ∧
      parseNumeric? "abc" = none ∧ coerceCell (Cell.strv "abc") = Except.ok 0 ∧
      coerceCell (Cell.strv "3.5") = Except.ok 3 ∧
      coerceCell (Cell.strv "-2.7") = Except.ok (-2) ∧
      coerceCell (Cell.strv "+5") = Except.ok 5 ∧
      coerceCell (Cell.strv " 12 ") = Except.ok 12 ∧
      coerceCell (Cell.flt (mkRat 27 10)) = Except.ok 2 :=
  ⟨by decide, Or.inl rfl, by decide, by decide,
   C6_coercion_amended.1 [tNeg] fNeg "Year" (by decide) (Or.inl rfl) (by decide)
     (fNeg.rows.getD 0 []) (by decide),
   by decide, C6_coercion_amended.2.1 "abc" (by decide),
   by decide, by decide, by decide, by decide, by decide⟩

/-! ## Edit pre-fill (src/app.py, lines 302-317) -/

/-- `default_index` of app.py lines 305-309: 0, replaced by the index of
the stored answer when that answer is among the aspect's current
options (`old_answers.get(...)` may also be absent/NaN, modelled as
`none`). -/
def default_index (old_answer : Option String) (opcoes : List String) : Nat :=
  match old_answer with
  | some a => if a ∈ opcoes then opcoes.indexOf a else 0
  | none => 0

/-- The option pre-selected by `st.radio(..., index=default_index)`:
the option at that index ("no default selected" would be `index=None`,
i.e. `none` here). -/
def preselected (old_answer : Option String) (opcoes : List String) : Option String :=
  opcoes[default_index old_answer opcoes]?

/-- C7 counterexample: a stored answer absent from the first aspect's
current option list yields `default_index = 0`, so the **first option is
pre-chosen** — not "no default selected" as the claim states. -/
theorem C7_counterexample :
    ¬ "X" ∈ ((ASPECTOS_AVALIACAO.getD 0 ⟨"", []⟩).opcoes) ∧
      preselected (some "X") (ASPECTOS_AVALIACAO.getD 0 ⟨"", []⟩).opcoes =
        some "1 - Muito Baixa" ∧
      ¬ preselected (some "X") (ASPECTOS_AVALIACAO.getD 0 ⟨"", []⟩).opcoes = none := by
  refine ⟨by decide, by decide, by decide⟩

/-- C7 (amended): the form is pre-filled with the reviewer's stored
answer whenever it is among the aspect's current options; a stored
answer not found in the option list (or a missing one) is mapped to
default index 0, pre-selecting the aspect's first option. -/
theorem C7_prefill_amended (oa : Option String) (ops : List String) :
    (∀ a, oa = some a → a ∈ ops → preselected oa ops = some a) ∧
    ((∀ a, oa = some a → ¬ a ∈ ops) → default_index oa ops = 0 ∧
      preselected oa ops = ops.head?) := by
  constructor
  · intro a ha hmem
    subst ha
    unfold preselected default_index
    show ops[if a ∈ ops then ops.indexOf a else 0]? = some a
    rw [if_pos hmem]
    have hlt := List.indexOf_lt_length.mpr hmem
    rw [List.getElem?_eq_getElem hlt, List.getElem_indexOf hlt]
  · intro h
    have h0 : default_index oa ops = 0 := by
      unfold default_index
      cases oa with
      | none => rfl
      | some a =>
        show (if a ∈ ops then ops.indexOf a else 0) = 0
        rw [if_neg (h a rfl)]
    refine ⟨h0, ?_⟩
    unfold preselected
    rw [h0]
    cases ops <;> simp

/-- Witness for the amended C7 at concrete inputs: a stored `"2 - Baixa"`
is pre-selected; a stored `"X"` falls back to the first option. -/
theorem C7_prefill_amended_witness :
    (some "2 - Baixa" = some "2 - Baixa" ∧
      "2 - Baixa" ∈ (ASPECTOS_AVALIACAO.getD 0 ⟨"", []⟩).opcoes ∧
      preselected (some "2 - Baixa") (ASPECTOS_AVALIACAO.getD 0 ⟨"", []⟩).opcoes =
        some "2 - Baixa") ∧
    (default_index (some "X") (ASPECTOS_AVALIACAO.getD 0 ⟨"", []⟩).opcoes = 0 ∧
      preselected (some "X") (ASPECTOS_AVALIACAO.getD 0 ⟨"", []⟩).opcoes =
        ((ASPECTOS_AVALIACAO.getD 0 ⟨"", []⟩).opcoes).head?) :=
  ⟨⟨rfl, by decide,
    (C7_prefill_amended (some "2 - Baixa") (ASPECTOS_AVALIACAO.getD 0 ⟨"", []⟩).opcoes).1
      "2 - Baixa" rfl (by decide)⟩,
   (C7_prefill_amended (some "X") (ASPECTOS_AVALIACAO.getD 0 ⟨"", []⟩).opcoes).2
     (fun a ha => by
       rw [(Option.some.injEq _ _).mp ha.symm]
       decide)⟩
